import Mathlib

/-!
Verification of the turtlejs command-log / boundary-tracing / playback core
(`src/turtle.js`).

Modelling conventions, stated once:

* JavaScript numbers are modelled as exact rationals (`ℚ`).  The spec and the
  code both treat positions as real numbers that are rounded to four decimal
  digits before being stored (`parseFloat(x.toFixed(4))`), which is modelled
  exactly by `round4` below (`toFixed` rounds to the nearest multiple of
  `1/10000`, ties toward `+∞`, matching `Int.round` via `⌊q·10⁴ + 1/2⌋`).
* The transcendental library calls `Math.hypot`, `Math.sin`, `Math.cos`,
  `Math.atan2` produce values that are irrational in general, so functions
  that consume them (`_moveTo`, `done`) take those already-computed values as
  explicit parameters.  Theorems either quantify over the parameters, or
  supply the exact values the library computes in the scenario at hand
  (e.g. for motion along `+X` the direction `atan2(d, 0)` has sine `1` and
  cosine `0` exactly), or constrain them by the defining equations of the
  library functions (`r ≥ 0 ∧ r² = dx² + dy²` characterises `hypot`,
  `s·r = dx ∧ c·r = dy` characterises the sine/cosine of `atan2 dx dy`).
* The `while` loops of `_moveTo` and of the animation inside `done` have no
  structural termination measure in the source, so they are modelled with an
  explicit fuel parameter; every loop exit in the source is a fuel-independent
  exit here, and theorems hold for every sufficient fuel.
* Rendering calls (canvas context operations) are modelled as an event trace:
  `done` is a pure function from the log to the list of rendering events it
  would issue, plus the drained session.
-/

/-- The flat turtle state object (`this._state` in `src/turtle.js` `_init`),
one field per JS property, in source order. -/
structure TState where
  x : ℚ
  y : ℚ
  angle : ℚ
  penDown : Bool
  width : ℚ
  visible : Bool
  redraw : Bool
  wrap : Bool
  color : String
  bgcolor : String
  speed : ℚ
  clear : Bool
  animateMovement : Bool
  instant : Bool
deriving DecidableEq, Repr

/-- `isDifferent(a, b)` from `src/turtle.js`: true iff some field of `a`
differs from the corresponding field of `b` (both arguments are full state
objects with the same keys whenever it is called on two states). -/
def isDifferent (a b : TState) : Bool :=
  decide (a.x ≠ b.x) || decide (a.y ≠ b.y) || decide (a.angle ≠ b.angle) ||
  decide (a.penDown ≠ b.penDown) || decide (a.width ≠ b.width) ||
  decide (a.visible ≠ b.visible) || decide (a.redraw ≠ b.redraw) ||
  decide (a.wrap ≠ b.wrap) || decide (a.color ≠ b.color) ||
  decide (a.bgcolor ≠ b.bgcolor) || decide (a.speed ≠ b.speed) ||
  decide (a.clear ≠ b.clear) ||
  decide (a.animateMovement ≠ b.animateMovement) ||
  decide (a.instant ≠ b.instant)

/-- A turtle session: the pending snapshot log (`this._states`), the live
current state (`this._state`), and the canvas dimensions (the hidden image
canvas is created with the same size as the given canvas, and `_moveTo`
reads the boundaries from it). -/
structure Turtle where
  states : List TState
  state : TState
  canvasW : ℚ
  canvasH : ℚ
deriving DecidableEq, Repr

/-- `_stateHasChanged` from `src/turtle.js`: true when the log is empty
(`lastState` undefined, and `isDifferent(undefined, state)` would be true as
well) or the current state differs from the last log entry. -/
def stateHasChanged (t : Turtle) : Bool :=
  match t.states.getLast? with
  | none => true
  | some lastState => isDifferent lastState t.state

/-- `_pushState` from `src/turtle.js`: append a (shallow) copy of the current
state to the log, but only if the state has changed. -/
def pushState (t : Turtle) : Turtle :=
  if stateHasChanged t then { t with states := t.states ++ [t.state] } else t

/-- The default state installed by `_init` (`SPEEDS.normal = 6`). -/
def defaultState : TState :=
  { x := 0, y := 0, angle := 0, penDown := true, width := 1, visible := true,
    redraw := true, wrap := true, color := "black", bgcolor := "", speed := 6,
    clear := false, animateMovement := true, instant := false }

/-- `_init` from `src/turtle.js`: empty the log, reset the current state to
the defaults, and push (the rendering-context resets it also performs are
rendering-surface effects outside the log model). -/
def initT (t : Turtle) : Turtle :=
  pushState { t with states := [], state := defaultState }

/-- A fresh session on a `w × h` canvas (the constructor calls `_init`). -/
def initTurtle (w h : ℚ) : Turtle :=
  initT { states := [], state := defaultState, canvasW := w, canvasH := h }

/-- `clear()` from `src/turtle.js`: set the one-shot `clear` flag, push,
then reset the flag on the live state (the pushed copy keeps it). -/
def clearCmd (t : Turtle) : Turtle :=
  let t1 := pushState { t with state := { t.state with clear := true } }
  { t1 with state := { t1.state with clear := false } }

/-- `reset()` from `src/turtle.js`: `_init` then `clear`. -/
def reset (t : Turtle) : Turtle :=
  clearCmd (initT t)

/-- The module-level `SPEEDS` table from `src/turtle.js`. -/
def SPEEDS : List (String × ℚ) :=
  [("fastest", 0), ("fast", 10), ("normal", 6), ("slow", 3), ("slowest", 1)]

/-- `speed(name)` from `src/turtle.js` for a string argument: look the name
up in `SPEEDS`; if the lookup is undefined fall back to `SPEEDS.normal`
(which is `6`); store the code and push. -/
def speedStr (name : String) (t : Turtle) : Turtle :=
  let s : ℚ :=
    match SPEEDS.lookup name with
    | some q => q
    | none => 6
  pushState { t with state := { t.state with speed := s } }

/-- `speed(n)` from `src/turtle.js` for a numeric argument: store and push. -/
def speedNum (q : ℚ) (t : Turtle) : Turtle :=
  pushState { t with state := { t.state with speed := q } }

/-- `parseFloat(v.toFixed(4))`: round to the nearest multiple of `1/10000`,
ties toward `+∞` (the ECMAScript `toFixed` tie rule picks the larger
candidate; `round q = ⌊q + 1/2⌋` does the same). -/
def round4 (q : ℚ) : ℚ :=
  ((round (q * 10000) : ℤ) : ℚ) / 10000

/-- `_setPos(x, y)` from `src/turtle.js`: store the 4-decimal rounding of the
given coordinates in the current state and push. -/
def setPos (px py : ℚ) (t : Turtle) : Turtle :=
  pushState { t with state := { t.state with x := round4 px, y := round4 py } }

/-- `tp(x, y)` from `src/turtle.js`: suppress animation for this single
append, set the position, then restore the flag on the live state. -/
def tp (px py : ℚ) (t : Turtle) : Turtle :=
  let t1 := { t with state := { t.state with animateMovement := false } }
  let t2 := setPos px py t1
  { t2 with state := { t2.state with animateMovement := true } }

/-- `wrap(bool)` from `src/turtle.js` (named `wrapCmd` because `wrap` is the
state field). -/
def wrapCmd (b : Bool) (t : Turtle) : Turtle :=
  pushState { t with state := { t.state with wrap := b } }

/-- `setheading(angle)` from `src/turtle.js`: store the angle as given (no
normalisation) and push. -/
def setheading (a : ℚ) (t : Turtle) : Turtle :=
  pushState { t with state := { t.state with angle := a } }

/-- `right(angle)` from `src/turtle.js`: add to the current angle and push. -/
def right (d : ℚ) (t : Turtle) : Turtle :=
  pushState { t with state := { t.state with angle := t.state.angle + d } }

/-- `left(angle)` from `src/turtle.js`: subtract from the current angle and
push. -/
def left (d : ℚ) (t : Turtle) : Turtle :=
  pushState { t with state := { t.state with angle := t.state.angle - d } }

/-- `heading()` from `src/turtle.js`: read the current angle, no append. -/
def heading (t : Turtle) : ℚ :=
  t.state.angle

/-- `position()` from `src/turtle.js`: read the current position, no
append. -/
def position (t : Turtle) : ℚ × ℚ :=
  (t.state.x, t.state.y)

/-- The `while (remainingDistance > 0)` loop of `_moveTo` in `src/turtle.js`.
`sinAngle` and `cosAngle` stand for `Math.sin(angle)` / `Math.cos(angle)` of
the fixed travel angle `atan2(targetX - x₀, targetY - y₀)` (the source
recomputes them each iteration from the same `angle`, so they are loop
constants).  The loop mutables are the local `x`, `y`, `remaining` and the
session `t` (mutated through `_setPos` / `tp`).  `fuel` bounds the number of
iterations (the source loop has no structural bound); running out of fuel
returns the session as-is, exactly like the loop guard failing. -/
def moveToLoop (maxX minX maxY minY sinAngle cosAngle : ℚ) :
    ℕ → ℚ → ℚ → ℚ → Turtle → Turtle
  | 0, _, _, _, t => t
  | fuel + 1, x, y, remaining, t =>
    if remaining > 0 then
      let newX := x + sinAngle * remaining
      let newY := y + cosAngle * remaining
      if t.state.wrap then
        if newX > maxX then
          let distanceToEdge := |(maxX - x) / sinAngle|
          let edgeY := cosAngle * distanceToEdge + y
          moveToLoop maxX minX maxY minY sinAngle cosAngle fuel minX edgeY
            (remaining - distanceToEdge) (tp minX edgeY (setPos maxX edgeY t))
        else if newX < minX then
          let distanceToEdge := |(minX - x) / sinAngle|
          let edgeY := cosAngle * distanceToEdge + y
          moveToLoop maxX minX maxY minY sinAngle cosAngle fuel maxX edgeY
            (remaining - distanceToEdge) (tp maxX edgeY (setPos minX edgeY t))
        else if newY > maxY then
          let distanceToEdge := |(maxY - y) / cosAngle|
          let edgeX := sinAngle * distanceToEdge + x
          moveToLoop maxX minX maxY minY sinAngle cosAngle fuel edgeX minY
            (remaining - distanceToEdge) (tp edgeX minY (setPos edgeX maxY t))
        else if newY < minY then
          let distanceToEdge := |(minY - y) / cosAngle|
          let edgeX := sinAngle * distanceToEdge + x
          moveToLoop maxX minX maxY minY sinAngle cosAngle fuel edgeX maxY
            (remaining - distanceToEdge) (tp edgeX maxY (setPos edgeX minY t))
        else
          moveToLoop maxX minX maxY minY sinAngle cosAngle fuel x y 0
            (setPos newX newY t)
      else
        moveToLoop maxX minX maxY minY sinAngle cosAngle fuel x y 0
          (setPos newX newY t)
    else t

/-- `_moveTo(targetX, targetY)` from `src/turtle.js`.  The boundaries are the
half-extents of the image canvas; the loop locals start at the current
position.  The target coordinates feed the computation only through
`remaining = Math.hypot(targetX - x, targetY - y)` and
`angle = Math.atan2(targetX - x, targetY - y)`; those already-computed
library values are passed as `r` (hypot) and `s`, `c` (sine and cosine of the
angle), and theorems constrain or instantiate them by the defining equations
of `hypot` / `atan2`. -/
def moveToW (targetX targetY r s c : ℚ) (fuel : ℕ) (t : Turtle) : Turtle :=
  moveToLoop (t.canvasW / 2) (-(t.canvasW / 2)) (t.canvasH / 2)
    (-(t.canvasH / 2)) s c fuel t.state.x t.state.y r t

/-- `goto(x, y)` from `src/turtle.js`: delegate to `_moveTo` (same auxiliary
parameters as `moveToW`). -/
def gotoW (targetX targetY r s c : ℚ) (fuel : ℕ) (t : Turtle) : Turtle :=
  moveToW targetX targetY r s c fuel t

/-- `forward(distance)` from `src/turtle.js`: `_distanceTarget` computes the
target from the heading trig (`sinA` / `cosA` stand for
`Math.sin(degToRad(angle))` / `Math.cos(degToRad(angle))`), then `_moveTo`
traces to it. -/
def forwardW (sinA cosA d r s c : ℚ) (fuel : ℕ) (t : Turtle) : Turtle :=
  moveToW (t.state.x + sinA * d) (t.state.y + cosA * d) r s c fuel t

/-- `backward(distance)` from `src/turtle.js`: `forward` of the negated
distance. -/
def backwardW (sinA cosA d r s c : ℚ) (fuel : ℕ) (t : Turtle) : Turtle :=
  forwardW sinA cosA (d * -1) r s c fuel t

/-- The condition under which one iteration of the `_moveTo` loop enters an
`xWrap` call (first two tests of the cascade): the candidate point
`newX = x + sinAngle·remaining` lies beyond `maxX` or beyond `minX`. -/
def xCross (maxX minX x sinAngle remaining : ℚ) : Prop :=
  x + sinAngle * remaining > maxX ∨ x + sinAngle * remaining < minX

/-- The condition under which one iteration of the `_moveTo` loop enters a
`yWrap` call: both X tests fail and the candidate point
`newY = y + cosAngle·remaining` lies beyond `maxY` or beyond `minY`. -/
def yCross (maxX minX maxY minY x y sinAngle cosAngle remaining : ℚ) : Prop :=
  ¬ xCross maxX minX x sinAngle remaining ∧
    (y + cosAngle * remaining > maxY ∨ y + cosAngle * remaining < minY)

/-- One rendering-surface action issued by playback (`done`), in issue
order.  `sleep` is an `await setTimeoutAsync` suspension, `draw` is a call of
`_draw` (full icon redraw + composite), `segment` is one animation frame's
line from `(x0, y0)` to `(x1, y1)` (stroked onto the image surface iff `pen`
is set). -/
inductive Event where
  | clearImage : Event
  | setLineWidth : ℚ → Event
  | setStroke : String → Event
  | setBackground : String → Event
  | draw : TState → Event
  | sleep : ℚ → Event
  | segment : ℚ → ℚ → ℚ → ℚ → Bool → Event
deriving DecidableEq, Repr

/-- `_drawIf(state)` from `src/turtle.js` as an event list: a full redraw iff
`state.redraw` is set. -/
def drawIfE (st : TState) : List Event :=
  if st.redraw then [Event.draw st] else []

/-- The irrational-valued library calls made inside `done`'s animation loop,
supplied as an oracle: `hyp a b` stands for `Math.hypot(a, b)`, and
`sinAtan a b` / `cosAtan a b` for the sine / cosine of `Math.atan2(a, b)`. -/
structure MathOracle where
  hyp : ℚ → ℚ → ℚ
  sinAtan : ℚ → ℚ → ℚ
  cosAtan : ℚ → ℚ → ℚ

/-- The `while (remainingDistance > 0)` animation loop inside `done` for one
snapshot pair `st → next`: each frame sleeps, strokes one segment, redraws,
and records the interpolated `tempState` as last-drawn.  Returns the events
and the final last-drawn state. -/
def animLoop (O : MathOracle) (st next : TState) (animationDistance : ℚ) :
    ℕ → ℚ → ℚ → ℚ → Option TState → List Event × Option TState
  | 0, _, _, _, lastDrawn => ([], lastDrawn)
  | fuel + 1, x, y, remaining, lastDrawn =>
    if remaining > 0 then
      let s := O.sinAtan (next.x - st.x) (next.y - st.y)
      let c := O.cosAtan (next.x - st.x) (next.y - st.y)
      let newX0 := x + s * animationDistance
      let newY0 := y + c * animationDistance
      let distanceToStop := O.hyp (x - next.x) (y - next.y)
      let newX := if distanceToStop < animationDistance then next.x else newX0
      let newY := if distanceToStop < animationDistance then next.y else newY0
      let tempState := { st with x := newX, y := newY }
      let frame :=
        [Event.sleep (if st.speed = 0 then 0 else 1000 / 60),
         Event.segment x y newX newY st.penDown] ++ drawIfE tempState
      let rest := animLoop O st next animationDistance fuel newX newY
        (remaining - animationDistance) (some tempState)
      (frame ++ rest.1, rest.2)
    else ([], lastDrawn)

/-- The `for ([i, state] of this._states.entries())` body of `done` in
`src/turtle.js`, one recursion step per snapshot, threading
`lastDrawnState`.  Per iteration: clear the image surface if the snapshot
carries the one-shot clear flag, apply the width / stroke / background style
effects unconditionally, do a paced full redraw when the snapshot differs
from the last drawn one, then run the animation loop toward the successor
when one exists, wants animation, and is at a different position. -/
def doneLoop (O : MathOracle) (fuel : ℕ) :
    List TState → Option TState → List Event
  | [], _ => []
  | st :: rest, lastDrawn =>
    let evClear := if st.clear then [Event.clearImage] else []
    let evStyle := [Event.setLineWidth st.width, Event.setStroke st.color,
      Event.setBackground st.bgcolor]
    let changed :=
      match lastDrawn with
      | none => true
      | some l => isDifferent l st
    let stepA : List Event × Option TState :=
      if changed then
        (drawIfE st ++
          (if !st.instant && decide (st.speed > 0)
            then [Event.sleep (1000 / 60)] else []),
         some st)
      else ([], lastDrawn)
    let animationDistance := if st.speed = 0 then 500 else st.speed * st.speed
    let stepB : List Event × Option TState :=
      match rest.head? with
      | some next =>
        if next.animateMovement ∧ (next.x ≠ st.x ∨ next.y ≠ st.y) then
          animLoop O st next animationDistance fuel st.x st.y
            (O.hyp (st.x - next.x) (st.y - next.y)) stepA.2
        else ([], stepA.2)
      | none => ([], stepA.2)
    evClear ++ evStyle ++ stepA.1 ++ stepB.1 ++ doneLoop O fuel rest stepB.2

/-- `done()` from `src/turtle.js`: replay the whole log as rendering events
(starting with no last-drawn state), then reset the log to empty.  The
current state is untouched. -/
def doneRun (O : MathOracle) (fuel : ℕ) (t : Turtle) : List Event × Turtle :=
  (doneLoop O fuel t.states none, { t with states := [] })

/-- A session equal to `t` except that the heading field of the current
state is replaced by `a` (used to state that a computation ignores the
heading). -/
def withAngle (a : ℚ) (t : Turtle) : Turtle :=
  { t with state := { t.state with angle := a } }

/-- Forget the heading field of a state (used to compare states up to
heading). -/
def clearAngle (st : TState) : TState :=
  { st with angle := 0 }

theorem isDifferent_iff (a b : TState) : isDifferent a b = true ↔ a ≠ b := by
  obtain ⟨x1, y1, a1, p1, w1, v1, r1, wr1, c1, b1, s1, cl1, an1, i1⟩ := a
  obtain ⟨x2, y2, a2, p2, w2, v2, r2, wr2, c2, b2, s2, cl2, an2, i2⟩ := b
  simp only [isDifferent, Bool.or_eq_true, decide_eq_true_eq, ne_eq,
    TState.mk.injEq, not_and]
  tauto

theorem pushState_state (t : Turtle) : (pushState t).state = t.state := by
  unfold pushState
  split <;> rfl

theorem pushState_canvasW (t : Turtle) :
    (pushState t).canvasW = t.canvasW := by
  unfold pushState
  split <;> rfl

theorem pushState_canvasH (t : Turtle) :
    (pushState t).canvasH = t.canvasH := by
  unfold pushState
  split <;> rfl

theorem pushState_of_changed (t : Turtle) (h : stateHasChanged t = true) :
    pushState t = { t with states := t.states ++ [t.state] } := by
  unfold pushState
  rw [h]
  simp

theorem pushState_of_unchanged (t : Turtle) (h : stateHasChanged t = false) :
    pushState t = t := by
  unfold pushState
  rw [h]
  simp

theorem round4_of_mul_eq (q : ℚ) (n : ℤ) (h : q * 10000 = (n : ℚ)) :
    round4 q = q := by
  unfold round4
  rw [h, round_intCast, div_eq_iff (by norm_num : (10000 : ℚ) ≠ 0)]
  exact h.symm

theorem round4_neg_of_fix (q : ℚ) (h : round4 q = q) : round4 (-q) = -q := by
  unfold round4 at h
  have h2 : ((round (q * 10000) : ℤ) : ℚ) = q * 10000 := by
    rw [div_eq_iff (by norm_num : (10000 : ℚ) ≠ 0)] at h
    exact h
  have h3 : -q * 10000 = ((-round (q * 10000) : ℤ) : ℚ) := by
    push_cast
    linarith
  unfold round4
  rw [h3, round_intCast]
  push_cast
  rw [div_eq_iff (by norm_num : (10000 : ℚ) ≠ 0)]
  linarith

theorem pushState_states_cases (t : Turtle) :
    (pushState t).states = t.states ∨
      (pushState t).states = t.states ++ [t.state] := by
  unfold pushState
  split
  · right; rfl
  · left; rfl

theorem setPos_state (px py : ℚ) (t : Turtle) :
    (setPos px py t).state = { t.state with x := round4 px, y := round4 py } := by
  unfold setPos
  rw [pushState_state]

theorem setPos_canvasW (px py : ℚ) (t : Turtle) :
    (setPos px py t).canvasW = t.canvasW := by
  unfold setPos
  rw [pushState_canvasW]

theorem tp_canvasW (px py : ℚ) (t : Turtle) :
    (tp px py t).canvasW = t.canvasW := by
  unfold tp
  simp only [setPos_canvasW]

theorem tp_state (px py : ℚ) (t : Turtle) :
    (tp px py t).state =
      { t.state with
          x := round4 px
          y := round4 py
          animateMovement := true } := by
  unfold tp
  simp only [setPos_state]

/-- C5: for every move whose Euclidean distance from the current position to
the target is zero, the boundary tracer is a no-op: the loop body never
executes and no snapshot is appended to the log.  The hypotheses on `r`
state that it is `Math.hypot` of the displacement (nonnegative, square equal
to the sum of squares), and the zero-distance assumption is that the target
coincides with the current position. -/
theorem c5_zero_distance_noop (targetX targetY r s c : ℚ) (fuel : ℕ)
    (t : Turtle) (hr : 0 ≤ r)
    (hhyp : r ^ 2 = (targetX - t.state.x) ^ 2 + (targetY - t.state.y) ^ 2)
    (hx : targetX = t.state.x) (hy : targetY = t.state.y) :
    gotoW targetX targetY r s c fuel t = t := by
  have h2 : r ^ 2 = 0 := by
    rw [hhyp, hx, hy]
    ring
  have h0 : r = 0 := (pow_eq_zero_iff (two_ne_zero)).mp h2
  subst h0
  unfold gotoW moveToW
  cases fuel with
  | zero => rfl
  | succ n => simp [moveToLoop]

/-- Witness for C5 at a concrete zero-distance move on a fresh session. -/
theorem c5_zero_distance_noop_witness :
    (0 ≤ (0 : ℚ)) ∧
    ((0 : ℚ) ^ 2 =
      ((0 : ℚ) - (initTurtle 200 200).state.x) ^ 2 +
        ((0 : ℚ) - (initTurtle 200 200).state.y) ^ 2) ∧
    ((0 : ℚ) = (initTurtle 200 200).state.x) ∧
    ((0 : ℚ) = (initTurtle 200 200).state.y) ∧
    gotoW 0 0 0 0 1 3 (initTurtle 200 200) = initTurtle 200 200 :=
  ⟨by norm_num,
    by
      rw [show (initTurtle 200 200).state = defaultState from rfl]
      norm_num [defaultState],
    rfl, rfl,
    c5_zero_distance_noop 0 0 0 0 1 3 (initTurtle 200 200) (by norm_num)
      (by
        rw [show (initTurtle 200 200).state = defaultState from rfl]
        norm_num [defaultState])
      rfl rfl⟩

/-- C6: playback drains the log exactly once.  After `done` completes the
log is empty; running `done` again with no intervening commands iterates
zero snapshots, emits no rendering events, and leaves the log empty — for
every math oracle and every fuel, so in particular playback on an empty log
is a no-op rather than an error. -/
theorem c6_done_drains (O : MathOracle) (fuel : ℕ) (t : Turtle) :
    (doneRun O fuel t).2.states = [] ∧
    (doneRun O fuel ((doneRun O fuel t).2)).1 = [] ∧
    (doneRun O fuel ((doneRun O fuel t).2)).2.states = [] :=
  ⟨rfl, rfl, rfl⟩

/-- C8: `speed` with a named level maps fastest to 0, fast to 10, normal to
6, slow to 3, slowest to 1, and any unknown name falls back to the "normal"
code 6; in particular the falsy-looking code 0 for "fastest" is stored, not
the fallback. -/
theorem c8_speed_names (t : Turtle) (name : String)
    (h : name ∉ ["fastest", "fast", "normal", "slow", "slowest"]) :
    (speedStr "fastest" t).state.speed = 0 ∧
    (speedStr "fast" t).state.speed = 10 ∧
    (speedStr "normal" t).state.speed = 6 ∧
    (speedStr "slow" t).state.speed = 3 ∧
    (speedStr "slowest" t).state.speed = 1 ∧
    (speedStr name t).state.speed = 6 := by
  simp only [List.mem_cons, List.not_mem_nil, or_false, not_or] at h
  obtain ⟨h1, h2, h3, h4, h5⟩ := h
  have b1 : (name == "fastest") = false := beq_eq_false_iff_ne.mpr h1
  have b2 : (name == "fast") = false := beq_eq_false_iff_ne.mpr h2
  have b3 : (name == "normal") = false := beq_eq_false_iff_ne.mpr h3
  have b4 : (name == "slow") = false := beq_eq_false_iff_ne.mpr h4
  have b5 : (name == "slowest") = false := beq_eq_false_iff_ne.mpr h5
  refine ⟨?_, ?_, ?_, ?_, ?_, ?_⟩ <;>
    simp [speedStr, pushState_state, SPEEDS, List.lookup, b1, b2, b3, b4, b5]

/-- Witness for C8 at the unknown name "warp" on a fresh session. -/
theorem c8_speed_names_witness :
    ("warp" ∉ ["fastest", "fast", "normal", "slow", "slowest"]) ∧
    ((speedStr "fastest" (initTurtle 200 200)).state.speed = 0 ∧
     (speedStr "fast" (initTurtle 200 200)).state.speed = 10 ∧
     (speedStr "normal" (initTurtle 200 200)).state.speed = 6 ∧
     (speedStr "slow" (initTurtle 200 200)).state.speed = 3 ∧
     (speedStr "slowest" (initTurtle 200 200)).state.speed = 1 ∧
     (speedStr "warp" (initTurtle 200 200)).state.speed = 6) :=
  ⟨by decide, c8_speed_names (initTurtle 200 200) "warp" (by decide)⟩

/-- C9: angles are stored unnormalized.  `setheading` stores exactly the
given angle (so `setheading 450` then `heading` yields 450, no modulo), and
`right` / `left` add / subtract their argument from the current angle with
no normalization. -/
theorem c9_heading_unnormalized (t : Turtle) (a d : ℚ) :
    heading (setheading a t) = a ∧
    heading (right d t) = heading t + d ∧
    heading (left d t) = heading t - d := by
  refine ⟨?_, ?_, ?_⟩ <;>
    simp [heading, setheading, right, left, pushState_state]

/-- C10: `reset` discards every pending snapshot: afterwards the log holds
exactly the default state followed by a copy of the default state with the
one-shot clear flag set, and the live current state is the default state
with the clear flag false. -/
theorem c10_reset (t : Turtle) :
    (reset t).states = [defaultState, { defaultState with clear := true }] ∧
    (reset t).state = defaultState ∧
    (reset t).state.clear = false := by
  have hinit : initT t =
      { states := [defaultState]
        state := defaultState
        canvasW := t.canvasW
        canvasH := t.canvasH } := rfl
  have hstep : reset t =
      { states := [defaultState, { defaultState with clear := true }]
        state := defaultState
        canvasW := t.canvasW
        canvasH := t.canvasH } := by
    unfold reset clearCmd
    rw [hinit]
    rfl
  rw [hstep]
  exact ⟨rfl, rfl, rfl⟩

theorem pushState_append_iff (t : Turtle) :
    (pushState t).states = t.states ++ [t.state] ↔
      (t.states = [] ∨ ∃ l, t.states.getLast? = some l ∧ l ≠ t.state) := by
  rcases hch : stateHasChanged t with _ | _
  · rw [pushState_of_unchanged t hch]
    unfold stateHasChanged at hch
    rcases hl : t.states.getLast? with _ | l
    · rw [hl] at hch
      simp at hch
    · have hch2 : isDifferent l t.state = false := by
        rw [hl] at hch
        exact hch
      have hlast : l = t.state := by
        by_contra hne
        rw [(isDifferent_iff l t.state).mpr hne] at hch2
        simp at hch2
      constructor
      · intro habs
        have := congrArg List.length habs
        simp at this
      · rintro (hemp | ⟨l2, hl2, hne2⟩)
        · rw [hemp] at hl
          simp at hl
        · obtain rfl : l2 = l := (Option.some.inj hl2).symm
          exact absurd hlast hne2
  · rw [pushState_of_changed t hch]
    unfold stateHasChanged at hch
    have hcond : t.states = [] ∨
        ∃ l, t.states.getLast? = some l ∧ l ≠ t.state := by
      rcases hl : t.states.getLast? with _ | l
      · exact Or.inl (List.getLast?_eq_none_iff.mp hl)
      · have hch2 : isDifferent l t.state = true := by
          rw [hl] at hch
          exact hch
        exact Or.inr ⟨l, rfl, (isDifferent_iff l t.state).mp hch2⟩
    exact iff_of_true rfl hcond

/-- C1: for every command-layer operation (all of which append through
`_pushState`), a push appends a copy of the current state iff the log is
empty or some field of the current state differs from the log's last entry
(`l ≠ t.state` is field-wise difference by `isDifferent_iff`); at most one
snapshot is appended; and the adjacent-distinctness invariant — no two
adjacent log snapshots with all fields equal — is preserved, so any log
built through `_pushState` never contains two adjacent equal snapshots,
while any field difference (even one restoring an earlier value) always
appends. -/
theorem c1_pushState_dedup (t : Turtle)
    (hadj : List.Chain' (fun a b => a ≠ b) t.states) :
    ((pushState t).states = t.states ++ [t.state] ↔
      (t.states = [] ∨
        ∃ l, t.states.getLast? = some l ∧ l ≠ t.state)) ∧
    ((pushState t).states = t.states ∨
      (pushState t).states = t.states ++ [t.state]) ∧
    List.Chain' (fun a b => a ≠ b) (pushState t).states := by
  refine ⟨pushState_append_iff t, pushState_states_cases t, ?_⟩
  rcases hch : stateHasChanged t with _ | _
  · rw [pushState_of_unchanged t hch]
    exact hadj
  · rw [pushState_of_changed t hch]
    unfold stateHasChanged at hch
    rw [List.chain'_append]
    refine ⟨hadj, List.chain'_singleton _, ?_⟩
    intro a ha b hb
    rcases hl : t.states.getLast? with _ | l
    · rw [hl] at ha
      simp at ha
    · have hch2 : isDifferent l t.state = true := by
        rw [hl] at hch
        exact hch
      rw [hl] at ha
      obtain rfl : l = a := by simpa using ha
      obtain rfl : t.state = b := by simpa using hb
      exact (isDifferent_iff _ _).mp hch2

/-- Witness for C1 on a fresh session (its log `[defaultState]` is
adjacent-distinct). -/
theorem c1_pushState_dedup_witness :
    List.Chain' (fun a b => a ≠ b) (initTurtle 200 200).states ∧
    (((pushState (initTurtle 200 200)).states =
        (initTurtle 200 200).states ++ [(initTurtle 200 200).state] ↔
      ((initTurtle 200 200).states = [] ∨
        ∃ l, (initTurtle 200 200).states.getLast? = some l ∧
          l ≠ (initTurtle 200 200).state)) ∧
    ((pushState (initTurtle 200 200)).states = (initTurtle 200 200).states ∨
      (pushState (initTurtle 200 200)).states =
        (initTurtle 200 200).states ++ [(initTurtle 200 200).state]) ∧
    List.Chain' (fun a b => a ≠ b) (pushState (initTurtle 200 200)).states) :=
  ⟨by
    rw [show (initTurtle 200 200).states = [defaultState] from rfl]
    exact List.chain'_singleton _,
   c1_pushState_dedup (initTurtle 200 200)
    (by
      rw [show (initTurtle 200 200).states = [defaultState] from rfl]
      exact List.chain'_singleton _)⟩

/-- C2 counterexample: the claim says the X-boundary crossing branch is
never taken with a zero sine.  But `tp` (and any move with wrap disabled)
can park the turtle outside the canvas: after `tp(150, 0)` on a 200×200
canvas the session has wrap on and `x = 150 > maxX = 100`, so a `forward(10)`
at heading 0 — travel angle `atan2(0, 10) = 0`, whose sine is exactly 0 and
cosine exactly 1 — makes `newX = x + 0·10 = 150 > maxX`: the `xWrap` branch
is taken and its divisor `sinAngle` is zero (the claim instance
`xCross → sinAngle ≠ 0` is false at `sinAngle = 0`). -/
theorem c2_x_branch_counterexample :
    (tp 150 0 (initTurtle 200 200)).state.wrap = true ∧
    ¬ (xCross ((tp 150 0 (initTurtle 200 200)).canvasW / 2)
        (-((tp 150 0 (initTurtle 200 200)).canvasW / 2))
        (tp 150 0 (initTurtle 200 200)).state.x 0 10 → (0 : ℚ) ≠ 0) := by
  have hx : (tp 150 0 (initTurtle 200 200)).state.x = 150 := by
    rw [tp_state]
    exact round4_of_mul_eq 150 1500000 (by norm_num)
  have hw : (tp 150 0 (initTurtle 200 200)).canvasW = 200 := by
    rw [tp_canvasW]
    rfl
  have hwr : (tp 150 0 (initTurtle 200 200)).state.wrap = true := by
    rw [tp_state]
    rfl
  refine ⟨hwr, ?_⟩
  intro himp
  refine himp ?_ rfl
  rw [hx, hw]
  unfold xCross
  norm_num

/-- C2 (amended): whenever the loop-entry position is inside the canvas
bounds on both axes — which holds in particular for every session whose
moves stay on the canvas — an X-boundary crossing branch forces a non-zero
sine and a Y-boundary crossing branch a non-zero cosine, so the
distance-to-edge division never divides by zero: movement exactly parallel
to an axis never triggers the perpendicular boundary's crossing test from
inside the canvas. -/
theorem c2_trig_nonzero_in_bounds
    (maxX minX maxY minY x y sinAngle cosAngle remaining : ℚ)
    (hx1 : minX ≤ x) (hx2 : x ≤ maxX) (hy1 : minY ≤ y) (hy2 : y ≤ maxY) :
    (xCross maxX minX x sinAngle remaining → sinAngle ≠ 0) ∧
    (yCross maxX minX maxY minY x y sinAngle cosAngle remaining →
      cosAngle ≠ 0) := by
  constructor
  · intro h hs
    subst hs
    rcases h with h | h <;> simp at h <;> linarith
  · rintro ⟨-, h⟩ hc
    subst hc
    rcases h with h | h <;> simp at h <;> linarith

/-- Witness for C2 (amended) at the canvas center with axis-parallel
motion. -/
theorem c2_trig_nonzero_in_bounds_witness :
    ((-100 : ℚ) ≤ 0) ∧ ((0 : ℚ) ≤ 100) ∧ ((-100 : ℚ) ≤ 0) ∧
    ((0 : ℚ) ≤ 100) ∧
    ((xCross 100 (-100) 0 0 10 → (0 : ℚ) ≠ 0) ∧
     (yCross 100 (-100) 100 (-100) 0 0 0 1 10 → (1 : ℚ) ≠ 0)) :=
  ⟨by norm_num, by norm_num, by norm_num, by norm_num,
    c2_trig_nonzero_in_bounds 100 (-100) 100 (-100) 0 0 0 1 10
      (by norm_num) (by norm_num) (by norm_num) (by norm_num)⟩

theorem moveToLoop_nonpos (maxX minX maxY minY s c : ℚ) (fuel : ℕ)
    (x y remaining : ℚ) (t : Turtle) (h : ¬ remaining > 0) :
    moveToLoop maxX minX maxY minY s c fuel x y remaining t = t := by
  cases fuel with
  | zero => rfl
  | succ n =>
    unfold moveToLoop
    rw [if_neg h]

theorem gotoW_nowrap_eq_setPos (targetX targetY r s c : ℚ) (fuel : ℕ)
    (t : Turtle) (hw : t.state.wrap = false) (hr : 0 < r)
    (hsx : t.state.x + s * r = targetX) (hcy : t.state.y + c * r = targetY) :
    gotoW targetX targetY r s c (fuel + 1) t = setPos targetX targetY t := by
  unfold gotoW moveToW moveToLoop
  rw [if_pos hr, hw]
  simp only [Bool.false_eq_true, if_false]
  rw [hsx, hcy]
  exact moveToLoop_nonpos _ _ _ _ _ _ _ _ _ _ _ (by norm_num)

/-- C4 (amended): for every move command (`forward`, `backward`, `goto` all
delegate to `_moveTo`) of positive length issued with wrap disabled, the
tracer performs exactly one `noWrap` iteration: the live state position
becomes the literal target rounded to 4 decimal digits regardless of canvas
size, and at most one snapshot is appended — exactly one iff that rounded
state differs from the log tail (so a target whose rounding coincides with
the current state, e.g. `goto(0.00001, 0)` from the origin, appends
nothing).  The hypotheses on `r`, `s`, `c` state that the displacement to
the target is `r` units in direction `(s, c)` with `r = hypot > 0`. -/
theorem c4_nowrap_single_append (targetX targetY r s c : ℚ) (fuel : ℕ)
    (t : Turtle) (hw : t.state.wrap = false) (hr : 0 < r)
    (hsx : t.state.x + s * r = targetX) (hcy : t.state.y + c * r = targetY) :
    (gotoW targetX targetY r s c (fuel + 1) t).state =
      { t.state with x := round4 targetX, y := round4 targetY } ∧
    ((gotoW targetX targetY r s c (fuel + 1) t).states = t.states ∨
      (gotoW targetX targetY r s c (fuel + 1) t).states = t.states ++
        [{ t.state with x := round4 targetX, y := round4 targetY }]) ∧
    ((gotoW targetX targetY r s c (fuel + 1) t).states = t.states ++
        [{ t.state with x := round4 targetX, y := round4 targetY }] ↔
      (t.states = [] ∨ ∃ l, t.states.getLast? = some l ∧
        l ≠ { t.state with x := round4 targetX, y := round4 targetY })) := by
  rw [gotoW_nowrap_eq_setPos targetX targetY r s c fuel t hw hr hsx hcy]
  unfold setPos
  refine ⟨pushState_state _, pushState_states_cases _, ?_⟩
  exact pushState_append_iff
    { t with state := { t.state with x := round4 targetX, y := round4 targetY } }

/-- Witness for C4 (amended): `goto(30, 40)` from a fresh session with wrap
turned off (displacement 50 in direction (3/5, 4/5)). -/
theorem c4_nowrap_single_append_witness :
    ((wrapCmd false (initTurtle 200 200)).state.wrap = false) ∧
    ((0 : ℚ) < 50) ∧
    ((wrapCmd false (initTurtle 200 200)).state.x + (3 / 5) * 50 = 30) ∧
    ((wrapCmd false (initTurtle 200 200)).state.y + (4 / 5) * 50 = 40) ∧
    ((gotoW 30 40 50 (3 / 5) (4 / 5) (0 + 1)
        (wrapCmd false (initTurtle 200 200))).state =
      { (wrapCmd false (initTurtle 200 200)).state with
          x := round4 30
          y := round4 40 } ∧
     ((gotoW 30 40 50 (3 / 5) (4 / 5) (0 + 1)
        (wrapCmd false (initTurtle 200 200))).states =
        (wrapCmd false (initTurtle 200 200)).states ∨
      (gotoW 30 40 50 (3 / 5) (4 / 5) (0 + 1)
        (wrapCmd false (initTurtle 200 200))).states =
        (wrapCmd false (initTurtle 200 200)).states ++
          [{ (wrapCmd false (initTurtle 200 200)).state with
              x := round4 30
              y := round4 40 }]) ∧
     ((gotoW 30 40 50 (3 / 5) (4 / 5) (0 + 1)
        (wrapCmd false (initTurtle 200 200))).states =
        (wrapCmd false (initTurtle 200 200)).states ++
          [{ (wrapCmd false (initTurtle 200 200)).state with
              x := round4 30
              y := round4 40 }] ↔
      ((wrapCmd false (initTurtle 200 200)).states = [] ∨
        ∃ l, (wrapCmd false (initTurtle 200 200)).states.getLast? = some l ∧
          l ≠ { (wrapCmd false (initTurtle 200 200)).state with
                  x := round4 30
                  y := round4 40 }))) :=
  ⟨rfl, by norm_num,
    by
      rw [show (wrapCmd false (initTurtle 200 200)).state.x = 0 from rfl]
      norm_num,
    by
      rw [show (wrapCmd false (initTurtle 200 200)).state.y = 0 from rfl]
      norm_num,
    c4_nowrap_single_append 30 40 50 (3 / 5) (4 / 5) 0
      (wrapCmd false (initTurtle 200 200)) rfl (by norm_num)
      (by
        rw [show (wrapCmd false (initTurtle 200 200)).state.x = 0 from rfl]
        norm_num)
      (by
        rw [show (wrapCmd false (initTurtle 200 200)).state.y = 0 from rfl]
        norm_num)⟩

/-- C4 counterexample: the claim as stated says a wrap-disabled move always
appends exactly one snapshot.  From a fresh session with wrap off,
`goto(1/100000, 0)` — Euclidean distance `1/100000 > 0`, direction `(1, 0)`
(`hypot(1/100000, 0) = 1/100000` and `atan2` of it has sine 1, cosine 0
exactly) — rounds the target to `(0, 0)`, which equals the log tail, so
nothing is appended: the log is unchanged. -/
theorem c4_counterexample :
    (wrapCmd false (initTurtle 200 200)).state.wrap = false ∧
    (0 : ℚ) < 1 / 100000 ∧
    (wrapCmd false (initTurtle 200 200)).state.x + 1 * (1 / 100000) =
      1 / 100000 ∧
    (wrapCmd false (initTurtle 200 200)).state.y + 0 * (1 / 100000) = 0 ∧
    (gotoW (1 / 100000) 0 (1 / 100000) 1 0 1
        (wrapCmd false (initTurtle 200 200))).states =
      (wrapCmd false (initTurtle 200 200)).states := by
  refine ⟨rfl, by norm_num, ?_, ?_, ?_⟩
  · rw [show (wrapCmd false (initTurtle 200 200)).state.x = 0 from rfl]
    norm_num
  · rw [show (wrapCmd false (initTurtle 200 200)).state.y = 0 from rfl]
    norm_num
  · have h1 : round4 (1 / 100000) = 0 := by
      unfold round4
      rw [show (1 / 100000 : ℚ) * 10000 = 1 / 10 by norm_num]
      norm_num [round_eq]
    have h2 : round4 0 = 0 := round4_of_mul_eq 0 0 (by norm_num)
    have hside : stateHasChanged
        { wrapCmd false (initTurtle 200 200) with
            state := { (wrapCmd false (initTurtle 200 200)).state with
                         x := round4 (1 / 100000)
                         y := round4 0 } } = false := by
      rw [h1, h2]
      decide
    rw [show (1 : ℕ) = 0 + 1 from rfl,
      gotoW_nowrap_eq_setPos (1 / 100000) 0 (1 / 100000) 1 0 0
        (wrapCmd false (initTurtle 200 200)) rfl (by norm_num)
        (by
          rw [show (wrapCmd false (initTurtle 200 200)).state.x = 0 from rfl]
          norm_num)
        (by
          rw [show (wrapCmd false (initTurtle 200 200)).state.y = 0 from rfl]
          norm_num)]
    unfold setPos
    rw [pushState_of_unchanged _ hside]

theorem moveToLoop_succ (maxX minX maxY minY s c : ℚ) (n : ℕ)
    (x y remaining : ℚ) (t : Turtle) :
    moveToLoop maxX minX maxY minY s c (n + 1) x y remaining t =
      if remaining > 0 then
        if t.state.wrap then
          if x + s * remaining > maxX then
            moveToLoop maxX minX maxY minY s c n minX
              (c * |(maxX - x) / s| + y) (remaining - |(maxX - x) / s|)
              (tp minX (c * |(maxX - x) / s| + y)
                (setPos maxX (c * |(maxX - x) / s| + y) t))
          else if x + s * remaining < minX then
            moveToLoop maxX minX maxY minY s c n maxX
              (c * |(minX - x) / s| + y) (remaining - |(minX - x) / s|)
              (tp maxX (c * |(minX - x) / s| + y)
                (setPos minX (c * |(minX - x) / s| + y) t))
          else if y + c * remaining > maxY then
            moveToLoop maxX minX maxY minY s c n
              (s * |(maxY - y) / c| + x) minY (remaining - |(maxY - y) / c|)
              (tp (s * |(maxY - y) / c| + x) minY
                (setPos (s * |(maxY - y) / c| + x) maxY t))
          else if y + c * remaining < minY then
            moveToLoop maxX minX maxY minY s c n
              (s * |(minY - y) / c| + x) maxY (remaining - |(minY - y) / c|)
              (tp (s * |(minY - y) / c| + x) maxY
                (setPos (s * |(minY - y) / c| + x) minY t))
          else
            moveToLoop maxX minX maxY minY s c n x y 0
              (setPos (x + s * remaining) (y + c * remaining) t)
        else
          moveToLoop maxX minX maxY minY s c n x y 0
            (setPos (x + s * remaining) (y + c * remaining) t)
      else t := rfl

theorem pushState_states_suffix (t : Turtle) :
    ∃ l, (pushState t).states = t.states ++ l ∧ ∀ st ∈ l, st = t.state := by
  rcases pushState_states_cases t with h | h
  · exact ⟨[], by simpa using h, by simp⟩
  · exact ⟨[t.state], h, by simp⟩

theorem setPos_suffix (px py : ℚ) (t : Turtle) :
    ∃ l, (setPos px py t).states = t.states ++ l ∧
      ∀ st ∈ l, st.angle = t.state.angle := by
  unfold setPos
  obtain ⟨l, hl, hall⟩ := pushState_states_suffix
    { t with state := { t.state with x := round4 px, y := round4 py } }
  refine ⟨l, hl, ?_⟩
  intro st hst
  rw [hall st hst]

theorem tp_suffix (px py : ℚ) (t : Turtle) :
    ∃ l, (tp px py t).states = t.states ++ l ∧
      ∀ st ∈ l, st.angle = t.state.angle := by
  unfold tp setPos
  obtain ⟨l, hl, hall⟩ := pushState_states_suffix
    { t with state := { { t.state with animateMovement := false } with
        x := round4 px, y := round4 py } }
  refine ⟨l, hl, ?_⟩
  intro st hst
  rw [hall st hst]

theorem angle_ext_compose {t t1 t2 : Turtle}
    (ha1 : t1.state.angle = t.state.angle)
    (hs1 : ∃ l, t1.states = t.states ++ l ∧
      ∀ st ∈ l, st.angle = t.state.angle)
    (ha2 : t2.state.angle = t1.state.angle)
    (hs2 : ∃ l, t2.states = t1.states ++ l ∧
      ∀ st ∈ l, st.angle = t1.state.angle) :
    t2.state.angle = t.state.angle ∧
      ∃ l, t2.states = t.states ++ l ∧
        ∀ st ∈ l, st.angle = t.state.angle := by
  obtain ⟨l1, h1, m1⟩ := hs1
  obtain ⟨l2, h2, m2⟩ := hs2
  refine ⟨ha2.trans ha1, l1 ++ l2, ?_, ?_⟩
  · rw [h2, h1, List.append_assoc]
  · intro st hst
    rcases List.mem_append.mp hst with h | h
    · exact m1 st h
    · exact (m2 st h).trans ha1

theorem setPos_angle_ext (px py : ℚ) (t : Turtle) :
    (setPos px py t).state.angle = t.state.angle ∧
      ∃ l, (setPos px py t).states = t.states ++ l ∧
        ∀ st ∈ l, st.angle = t.state.angle :=
  ⟨by rw [setPos_state], setPos_suffix px py t⟩

theorem tp_setPos_angle_ext (p q a b : ℚ) (t : Turtle) :
    (tp a b (setPos p q t)).state.angle = t.state.angle ∧
      ∃ l, (tp a b (setPos p q t)).states = t.states ++ l ∧
        ∀ st ∈ l, st.angle = t.state.angle := by
  refine @angle_ext_compose _ (setPos p q t) _ ?_ (setPos_suffix p q t) ?_
    (tp_suffix a b (setPos p q t))
  · rw [setPos_state]
  · rw [tp_state]

theorem moveToLoop_angle_ext (maxX minX maxY minY s c : ℚ) (fuel : ℕ) :
    ∀ (x y remaining : ℚ) (t : Turtle),
      (moveToLoop maxX minX maxY minY s c fuel x y remaining t).state.angle =
        t.state.angle ∧
      ∃ l, (moveToLoop maxX minX maxY minY s c fuel x y remaining t).states =
          t.states ++ l ∧ ∀ st ∈ l, st.angle = t.state.angle := by
  induction fuel with
  | zero =>
    intro x y remaining t
    exact ⟨rfl, [], by simp [moveToLoop], by simp⟩
  | succ n ih =>
    intro x y remaining t
    rw [moveToLoop_succ]
    split_ifs with h1 h2 h3 h4 h5 h6
    · exact angle_ext_compose (tp_setPos_angle_ext _ _ _ _ t).1
        (tp_setPos_angle_ext _ _ _ _ t).2 (ih _ _ _ _).1 (ih _ _ _ _).2
    · exact angle_ext_compose (tp_setPos_angle_ext _ _ _ _ t).1
        (tp_setPos_angle_ext _ _ _ _ t).2 (ih _ _ _ _).1 (ih _ _ _ _).2
    · exact angle_ext_compose (tp_setPos_angle_ext _ _ _ _ t).1
        (tp_setPos_angle_ext _ _ _ _ t).2 (ih _ _ _ _).1 (ih _ _ _ _).2
    · exact angle_ext_compose (tp_setPos_angle_ext _ _ _ _ t).1
        (tp_setPos_angle_ext _ _ _ _ t).2 (ih _ _ _ _).1 (ih _ _ _ _).2
    · exact angle_ext_compose (setPos_angle_ext _ _ t).1
        (setPos_angle_ext _ _ t).2 (ih _ _ _ _).1 (ih _ _ _ _).2
    · exact angle_ext_compose (setPos_angle_ext _ _ t).1
        (setPos_angle_ext _ _ t).2 (ih _ _ _ _).1 (ih _ _ _ _).2
    · exact ⟨rfl, [], by simp, by simp⟩

theorem clearAngle_eq_fields {s1 s2 : TState}
    (h : clearAngle s1 = clearAngle s2) :
    s1.x = s2.x ∧ s1.y = s2.y ∧ s1.penDown = s2.penDown ∧
    s1.width = s2.width ∧ s1.visible = s2.visible ∧ s1.redraw = s2.redraw ∧
    s1.wrap = s2.wrap ∧ s1.color = s2.color ∧ s1.bgcolor = s2.bgcolor ∧
    s1.speed = s2.speed ∧ s1.clear = s2.clear ∧
    s1.animateMovement = s2.animateMovement ∧ s1.instant = s2.instant := by
  unfold clearAngle at h
  simp only [TState.mk.injEq] at h
  obtain ⟨hx, hy, -, hpd, hwd, hv, hr, hwr, hc, hb, hs, hcl, han, hin⟩ := h
  exact ⟨hx, hy, hpd, hwd, hv, hr, hwr, hc, hb, hs, hcl, han, hin⟩

theorem clearAngle_setPos_congr (p q : ℚ) {t1 t2 : Turtle}
    (h : clearAngle t1.state = clearAngle t2.state) :
    clearAngle (setPos p q t1).state = clearAngle (setPos p q t2).state := by
  obtain ⟨hx, hy, hpd, hwd, hv, hr, hwr, hc, hb, hs, hcl, han, hin⟩ :=
    clearAngle_eq_fields h
  rw [setPos_state, setPos_state]
  unfold clearAngle
  rw [hpd, hwd, hv, hr, hwr, hc, hb, hs, hcl, han, hin]

theorem clearAngle_tp_setPos_congr (p q a b : ℚ) {t1 t2 : Turtle}
    (h : clearAngle t1.state = clearAngle t2.state) :
    clearAngle (tp a b (setPos p q t1)).state =
      clearAngle (tp a b (setPos p q t2)).state := by
  obtain ⟨hx, hy, hpd, hwd, hv, hr, hwr, hc, hb, hs, hcl, han, hin⟩ :=
    clearAngle_eq_fields h
  rw [tp_state, tp_state, setPos_state, setPos_state]
  unfold clearAngle
  rw [hpd, hwd, hv, hr, hwr, hc, hb, hs, hcl, hin]

theorem moveToLoop_state_indep (maxX minX maxY minY s c : ℚ) (fuel : ℕ) :
    ∀ (x y remaining : ℚ) (t1 t2 : Turtle),
      clearAngle t1.state = clearAngle t2.state →
      clearAngle
          (moveToLoop maxX minX maxY minY s c fuel x y remaining t1).state =
        clearAngle
          (moveToLoop maxX minX maxY minY s c fuel x y remaining t2).state := by
  induction fuel with
  | zero =>
    intro _ _ _ _ _ h
    exact h
  | succ n ih =>
    intro x y remaining t1 t2 h
    have hw : t1.state.wrap = t2.state.wrap :=
      (clearAngle_eq_fields h).2.2.2.2.2.2.1
    rw [moveToLoop_succ, moveToLoop_succ, ← hw]
    split_ifs with h1 h2 h3 h4 h5 h6
    · exact ih _ _ _ _ _ (clearAngle_tp_setPos_congr _ _ _ _ h)
    · exact ih _ _ _ _ _ (clearAngle_tp_setPos_congr _ _ _ _ h)
    · exact ih _ _ _ _ _ (clearAngle_tp_setPos_congr _ _ _ _ h)
    · exact ih _ _ _ _ _ (clearAngle_tp_setPos_congr _ _ _ _ h)
    · exact ih _ _ _ _ _ (clearAngle_setPos_congr _ _ h)
    · exact ih _ _ _ _ _ (clearAngle_setPos_congr _ _ h)
    · exact h

/-- C7: `goto` recomputes the trace direction from the displacement to the
target alone (the direction parameters of `gotoW` are functions of the
positions, never of the stored heading) and persists no new heading: after
the call `heading` yields the same value as before, every snapshot the call
appends carries the pre-call angle field unchanged, and the resulting state
is — apart from the untouched heading field — identical no matter what the
heading was when the call was made. -/
theorem c7_goto_independent_of_heading (targetX targetY r s c : ℚ)
    (fuel : ℕ) (t : Turtle) (a : ℚ) :
    heading (gotoW targetX targetY r s c fuel t) = heading t ∧
    (∃ l, (gotoW targetX targetY r s c fuel t).states = t.states ++ l ∧
      ∀ st ∈ l, st.angle = t.state.angle) ∧
    clearAngle (gotoW targetX targetY r s c fuel (withAngle a t)).state =
      clearAngle (gotoW targetX targetY r s c fuel t).state := by
  obtain ⟨h1, h2⟩ := moveToLoop_angle_ext (t.canvasW / 2) (-(t.canvasW / 2))
    (t.canvasH / 2) (-(t.canvasH / 2)) s c fuel t.state.x t.state.y r t
  refine ⟨h1, h2, ?_⟩
  exact moveToLoop_state_indep (t.canvasW / 2) (-(t.canvasW / 2))
    (t.canvasH / 2) (-(t.canvasH / 2)) s c fuel t.state.x t.state.y r
    (withAngle a t) t rfl

theorem setPos_push (p q : ℚ) (t : Turtle) (l : TState)
    (hl : t.states.getLast? = some l)
    (hne : l ≠ { t.state with x := round4 p, y := round4 q }) :
    setPos p q t =
      { t with
          states := t.states ++
            [{ t.state with x := round4 p, y := round4 q }]
          state := { t.state with x := round4 p, y := round4 q } } := by
  unfold setPos
  rw [pushState_of_changed]
  · unfold stateHasChanged
    have hl2 : ({ t with
        state := { t.state with x := round4 p, y := round4 q } } :
          Turtle).states.getLast? = some l := hl
    rw [hl2]
    exact (isDifferent_iff _ _).mpr hne

theorem tp_push (p q : ℚ) (t : Turtle) (l : TState)
    (hl : t.states.getLast? = some l)
    (hne : l ≠ { t.state with
        x := round4 p
        y := round4 q
        animateMovement := false }) :
    tp p q t =
      { t with
          states := t.states ++
            [{ t.state with
                x := round4 p
                y := round4 q
                animateMovement := false }]
          state := { t.state with
              x := round4 p
              y := round4 q
              animateMovement := true } } := by
  simp only [tp, setPos]
  rw [pushState_of_changed]
  · unfold stateHasChanged
    have hl2 : ({ { t with
        state := { t.state with animateMovement := false } } with
        state := { { t.state with animateMovement := false } with
            x := round4 p
            y := round4 q } } : Turtle).states.getLast? = some l := hl
    rw [hl2]
    refine (isDifferent_iff _ _).mpr ?_
    intro heq
    apply hne
    rw [heq]

/-- C3: with wrap enabled, the turtle at the canvas center, and motion along
`+X` (heading 90°, whose `degToRad`-trig is exactly `(sin, cos) = (1, 0)`,
so the target is `(2w, 0)`, `hypot = 2w`, and the `atan2` direction again
`(1, 0)`), `forward(2·canvasWidth)` crosses the right edge exactly twice:
the move appends exactly five snapshots — for each crossing an animated
snapshot at `x = maxX = w/2` followed by a non-animated teleport snapshot at
`x = minX = -(w/2)` — and the final appended snapshot is the start state
itself, so its X coordinate equals the starting X.  Hypotheses: positive
canvas width whose half is exact at 4 decimals, nonnegative height, session
at the center with wrap on, animation on, and log tail equal to the current
state (as after any completed command). -/
theorem c3_wrap_double_crossing (w : ℚ) (fuel : ℕ) (t : Turtle)
    (hw : 0 < w) (hfix : round4 (w / 2) = w / 2)
    (hcw : t.canvasW = w) (hch : 0 ≤ t.canvasH)
    (hx : t.state.x = 0) (hy : t.state.y = 0)
    (hwrap : t.state.wrap = true) (hanim : t.state.animateMovement = true)
    (hlast : t.states.getLast? = some t.state) :
    (forwardW 1 0 (2 * w) (2 * w) 1 0 (fuel + 4) t).states =
      t.states ++
        [{ t.state with x := w / 2, y := 0 },
         { t.state with
             x := -(w / 2)
             y := 0
             animateMovement := false },
         { t.state with x := w / 2, y := 0 },
         { t.state with
             x := -(w / 2)
             y := 0
             animateMovement := false },
         t.state] ∧
    (forwardW 1 0 (2 * w) (2 * w) 1 0 (fuel + 4) t).state = t.state := by
  have hround0 : round4 0 = 0 := round4_of_mul_eq 0 0 (by norm_num)
  have hroundneg : round4 (-(w / 2)) = -(w / 2) := round4_neg_of_fix _ hfix
  obtain ⟨tstates, st, cw, chh⟩ := t
  obtain ⟨sx, sy, sa, spd, swd, sv, sre, swr, sco, sbg, ssp, scl, san, sin2⟩ :=
    st
  dsimp only at hcw hch hx hy hwrap hanim hlast ⊢
  subst hx hy hwrap hanim
  unfold forwardW moveToW
  dsimp only
  rw [hcw]
  -- iteration 1: cross the right edge, teleport to the left edge
  rw [show fuel + 4 = (fuel + 3) + 1 from rfl, moveToLoop_succ]
  dsimp only
  rw [if_pos (show (2 * w : ℚ) > 0 by linarith)]
  rw [if_pos (show (true = true) from rfl)]
  rw [if_pos (show (0 : ℚ) + 1 * (2 * w) > w / 2 by linarith)]
  rw [show ((w / 2 - 0) / 1 : ℚ) = w / 2 by ring]
  rw [abs_of_nonneg (show (0 : ℚ) ≤ w / 2 by linarith)]
  rw [show (0 : ℚ) * (w / 2) + 0 = 0 by ring]
  rw [setPos_push (w / 2) 0
    ⟨tstates, ⟨0, 0, sa, spd, swd, sv, sre, true, sco, sbg, ssp, scl, true,
      sin2⟩, w, chh⟩
    ⟨0, 0, sa, spd, swd, sv, sre, true, sco, sbg, ssp, scl, true, sin2⟩
    hlast
    (by
      intro heq
      have h1 : (0 : ℚ) = round4 (w / 2) := congrArg TState.x heq
      rw [hfix] at h1
      linarith)]
  rw [hfix, hround0]
  dsimp only
  rw [tp_push (-(w / 2)) 0 _ _ (List.getLast?_concat _)
    (by
      intro heq
      have h1 : (true : Bool) = false := congrArg TState.animateMovement heq
      exact absurd h1 (by simp))]
  rw [hroundneg, hround0]
  dsimp only
  -- iteration 2: cross the right edge again, teleport again
  rw [show fuel + 3 = (fuel + 2) + 1 from rfl, moveToLoop_succ]
  dsimp only
  rw [if_pos (show (2 * w - w / 2 : ℚ) > 0 by linarith)]
  rw [if_pos (show (true = true) from rfl)]
  rw [if_pos (show (-(w / 2) + 1 * (2 * w - w / 2) : ℚ) > w / 2 by linarith)]
  rw [show ((w / 2 - -(w / 2)) / 1 : ℚ) = w by ring]
  rw [abs_of_nonneg (show (0 : ℚ) ≤ w by linarith)]
  rw [show (0 : ℚ) * w + 0 = 0 by ring]
  rw [setPos_push (w / 2) 0 _ _ (List.getLast?_concat _)
    (by
      intro heq
      have h1 : (false : Bool) = true := congrArg TState.animateMovement heq
      exact absurd h1 (by simp))]
  rw [hfix, hround0]
  dsimp only
  rw [tp_push (-(w / 2)) 0 _ _ (List.getLast?_concat _)
    (by
      intro heq
      have h1 : (true : Bool) = false := congrArg TState.animateMovement heq
      exact absurd h1 (by simp))]
  rw [hroundneg, hround0]
  dsimp only
  -- iteration 3: no boundary crossed, land back at the start position
  rw [show fuel + 2 = (fuel + 1) + 1 from rfl, moveToLoop_succ]
  dsimp only
  rw [if_pos (show (2 * w - w / 2 - w : ℚ) > 0 by linarith)]
  rw [if_pos (show (true = true) from rfl)]
  rw [if_neg
    (show ¬((-(w / 2) + 1 * (2 * w - w / 2 - w) : ℚ) > w / 2) by
      intro hcon
      nlinarith)]
  rw [if_neg
    (show ¬((-(w / 2) + 1 * (2 * w - w / 2 - w) : ℚ) < -(w / 2)) by
      intro hcon
      nlinarith)]
  rw [if_neg
    (show ¬((0 : ℚ) + 0 * (2 * w - w / 2 - w) > chh / 2) by
      intro hcon
      nlinarith)]
  rw [if_neg
    (show ¬((0 : ℚ) + 0 * (2 * w - w / 2 - w) < -(chh / 2)) by
      intro hcon
      nlinarith)]
  rw [show (-(w / 2) + 1 * (2 * w - w / 2 - w) : ℚ) = 0 by ring]
  rw [show (0 : ℚ) + 0 * (2 * w - w / 2 - w) = 0 by ring]
  rw [setPos_push 0 0 _ _ (List.getLast?_concat _)
    (by
      intro heq
      have h1 : (false : Bool) = true := congrArg TState.animateMovement heq
      exact absurd h1 (by simp))]
  rw [hround0]
  dsimp only
  rw [moveToLoop_nonpos _ _ _ _ _ _ _ _ _ _ _ (by norm_num)]
  constructor
  · simp only [List.append_assoc, List.cons_append, List.nil_append]
  · rfl

/-- Witness for C3: a 200×200 canvas, heading 90 set on a fresh session. -/
theorem c3_wrap_double_crossing_witness :
    ((0 : ℚ) < 200) ∧
    (round4 (200 / 2) = 200 / 2) ∧
    ((setheading 90 (initTurtle 200 200)).canvasW = 200) ∧
    ((0 : ℚ) ≤ (setheading 90 (initTurtle 200 200)).canvasH) ∧
    ((setheading 90 (initTurtle 200 200)).state.x = 0) ∧
    ((setheading 90 (initTurtle 200 200)).state.y = 0) ∧
    ((setheading 90 (initTurtle 200 200)).state.wrap = true) ∧
    ((setheading 90 (initTurtle 200 200)).state.animateMovement = true) ∧
    ((setheading 90 (initTurtle 200 200)).states.getLast? =
      some (setheading 90 (initTurtle 200 200)).state) ∧
    ((forwardW 1 0 (2 * 200) (2 * 200) 1 0 (0 + 4)
        (setheading 90 (initTurtle 200 200))).states =
      (setheading 90 (initTurtle 200 200)).states ++
        [{ (setheading 90 (initTurtle 200 200)).state with
             x := 200 / 2
             y := 0 },
         { (setheading 90 (initTurtle 200 200)).state with
             x := -(200 / 2)
             y := 0
             animateMovement := false },
         { (setheading 90 (initTurtle 200 200)).state with
             x := 200 / 2
             y := 0 },
         { (setheading 90 (initTurtle 200 200)).state with
             x := -(200 / 2)
             y := 0
             animateMovement := false },
         (setheading 90 (initTurtle 200 200)).state] ∧
      (forwardW 1 0 (2 * 200) (2 * 200) 1 0 (0 + 4)
        (setheading 90 (initTurtle 200 200))).state =
        (setheading 90 (initTurtle 200 200)).state) :=
  ⟨by norm_num,
   round4_of_mul_eq (200 / 2) 1000000 (by norm_num),
   rfl,
   by
     rw [show (setheading 90 (initTurtle 200 200)).canvasH = 200 from rfl]
     norm_num,
   rfl, rfl, rfl, rfl, by decide,
   c3_wrap_double_crossing 200 0 (setheading 90 (initTurtle 200 200))
     (by norm_num)
     (round4_of_mul_eq (200 / 2) 1000000 (by norm_num))
     rfl
     (by
       rw [show (setheading 90 (initTurtle 200 200)).canvasH = 200 from rfl]
       norm_num)
     rfl rfl rfl rfl (by decide)⟩
